import Mathlib

/-!
Verification development for the rmux session engine of rsnova
(`src/rmux/session.rs`).

The Rust source is shallowly embedded: stateful functions become pure
functions on explicit state values, machine integers become `Nat`/`Int`
with explicit `% 2^w` at the points where the source performs wrapping
arithmetic, channels (queues) become lists of enqueued items, and the
session registry's `HashMap` becomes an association list.

External collaborators that are part of this repository but not under
`src/` (the event constructors, the `MuxStream` object, `bincode`
serialisation of `ConnectRequest`, and `CryptoContext`) are modelled from
the spec; their definitions carry a doc comment saying so.
-/

set_option maxHeartbeats 1000000

/-- Modelled from the spec: the SYN flag constant (`super::event::FLAG_SYN`,
not under `src/`); the spec only requires the eight flags to be numerically
distinct `u8` values. -/
def FLAG_SYN : Nat := 1

/-- Modelled from the spec: the FIN flag constant. -/
def FLAG_FIN : Nat := 2

/-- Modelled from the spec: the DATA flag constant. -/
def FLAG_DATA : Nat := 3

/-- Modelled from the spec: the WIN_UPDATE flag constant. -/
def FLAG_WIN_UPDATE : Nat := 4

/-- Modelled from the spec: the PING flag constant. -/
def FLAG_PING : Nat := 5

/-- Modelled from the spec: the PONG flag constant. -/
def FLAG_PONG : Nat := 6

/-- Modelled from the spec: the SHUTDOWN flag constant (internal-only event). -/
def FLAG_SHUTDOWN : Nat := 7

/-- Modelled from the spec: the ROUTINE flag constant (internal-only event). -/
def FLAG_ROUTINE : Nat := 8

/-- Modelled from the spec: an event header carries `stream_id`, `flags` and
`len` (payload length or window delta depending on the flag). -/
structure EventHeader where
  stream_id : Nat
  flags : Nat
  len : Nat
  deriving DecidableEq, Repr

/-- Modelled from the spec: the wire/loop unit. `remote = true` when the
event was produced by the transport reader from the wire. The body is a
byte sequence, modelled as a list of naturals. -/
structure Event where
  header : EventHeader
  body : List Nat
  remote : Bool
  deriving DecidableEq, Repr

/-- `super::message::ConnectRequest` (modelled from the spec: a pair of
strings `proto` and `addr`). -/
structure ConnectRequest where
  proto : String
  addr : String
  deriving DecidableEq, Repr

/-- Modelled from the spec: length-prefixed binary encoding of a
`ConnectRequest` (as produced by `bincode::serialize`). -/
def encode_connect_request (c : ConnectRequest) : List Nat :=
  c.proto.length :: (c.proto.toList.map Char.toNat
    ++ c.addr.length :: c.addr.toList.map Char.toNat)

/-- Modelled from the spec: decoding of a `ConnectRequest` from a SYN body
(as consumed by `bincode::deserialize`); returns `none` on malformed input. -/
def decode_connect_request (b : List Nat) : Option ConnectRequest :=
  match b with
  | [] => none
  | n :: rest =>
    if n ≤ rest.length then
      match rest.drop n with
      | [] => none
      | m :: rest2 =>
        if m = rest2.length then
          some ⟨String.mk ((rest.take n).map Char.ofNat), String.mk (rest2.map Char.ofNat)⟩
        else none
    else none

/-- Modelled from the spec: `new_syn_event(sid, &creq)` builds a local SYN
event whose body is the encoded connect request. -/
def new_syn_event (sid : Nat) (creq : ConnectRequest) : Event :=
  { header := { stream_id := sid, flags := FLAG_SYN, len := (encode_connect_request creq).length }
    body := encode_connect_request creq
    remote := false }

/-- Modelled from the spec: `new_fin_event(sid, remote)`. -/
def new_fin_event (sid : Nat) (remote : Bool) : Event :=
  { header := { stream_id := sid, flags := FLAG_FIN, len := 0 }, body := [], remote := remote }

/-- Modelled from the spec: `new_ping_event(sid, remote)`. -/
def new_ping_event (sid : Nat) (remote : Bool) : Event :=
  { header := { stream_id := sid, flags := FLAG_PING, len := 0 }, body := [], remote := remote }

/-- Modelled from the spec: `new_pong_event(sid, remote)`. -/
def new_pong_event (sid : Nat) (remote : Bool) : Event :=
  { header := { stream_id := sid, flags := FLAG_PONG, len := 0 }, body := [], remote := remote }

/-- Modelled from the spec: `new_routine_event(sid)` (internal-only). -/
def new_routine_event (sid : Nat) : Event :=
  { header := { stream_id := sid, flags := FLAG_ROUTINE, len := 0 }, body := [], remote := false }

/-- Modelled from the spec: `new_shutdown_event(sid, remote)` (internal-only). -/
def new_shutdown_event (sid : Nat) (remote : Bool) : Event :=
  { header := { stream_id := sid, flags := FLAG_SHUTDOWN, len := 0 }, body := [], remote := remote }

/-- Modelled from the spec: `new_window_update_event(sid, window, remote)`;
the window delta travels in the header `len` field. -/
def new_window_update_event (sid : Nat) (window : Nat) (remote : Bool) : Event :=
  { header := { stream_id := sid, flags := FLAG_WIN_UPDATE, len := window }, body := [], remote := remote }

/-- Modelled from the spec: `CryptoContext` state (key and nonce). -/
structure CryptoContext where
  key : Nat
  nonce : Nat
  deriving DecidableEq, Repr

/-- Modelled from the spec: `CryptoContext::encrypt(event, out_buf)` turns an
event into an opaque framed byte buffer; the exact layout is the crypto
collaborator's concern, so the model simply serialises the context and the
event fields. -/
def CryptoContext.encrypt (ctx : CryptoContext) (ev : Event) : List Nat :=
  ctx.key :: ctx.nonce :: ev.header.stream_id :: ev.header.flags :: ev.header.len :: ev.body

/-- Modelled from the spec: the user-facing stream object `MuxStream`.
The back-reference to the session's event queue is represented by the
owning session id; `recv` models the inbound buffer fed by `offer_data`,
`send_window` the flow-control credit. -/
structure MuxStream where
  channel : String
  session_id : Nat
  stream_id : Nat
  target : ConnectRequest
  closed : Bool
  recv : List Nat
  send_window : Nat
  deriving DecidableEq, Repr

/-- Modelled from the spec: `MuxStream::new(channel, session_id, sid, event_tx, creq)`. -/
def MuxStream.new (channel : String) (session_id : Nat) (sid : Nat)
    (target : ConnectRequest) : MuxStream :=
  { channel := channel, session_id := session_id, stream_id := sid, target := target
    closed := false, recv := [], send_window := 0 }

/-- Modelled from the spec: `MuxStream::close` marks the stream closed. -/
def MuxStream.close (s : MuxStream) : MuxStream := { s with closed := true }

/-- Modelled from the spec: `MuxStream::offer_data` appends the payload to
the stream's inbound buffer. -/
def MuxStream.offer_data (s : MuxStream) (body : List Nat) : MuxStream :=
  { s with recv := s.recv ++ body }

/-- Modelled from the spec: `MuxStream::update_send_window(delta)` adds the
delta to the send window with saturating `u32` arithmetic. -/
def MuxStream.update_send_window (s : MuxStream) (delta : Nat) : MuxStream :=
  { s with send_window := min (s.send_window + delta) 4294967295 }

/-- `MuxSessionState` (src/rmux/session.rs, lines 54-61). `born_elapsed_secs`
stands for `born_time.elapsed().as_secs()` observed at the moment the state
is inspected (the source stores the monotonic `born_time` instant). -/
structure MuxSessionState where
  last_ping_send_time : Nat
  last_pong_recv_time : Nat
  born_elapsed_secs : Nat
  retired : Bool
  io_active_unix_secs : Nat
  closed : Bool
  deriving DecidableEq, Repr

/-- `MuxSessionState::ping_pong_gap` (lines 64-71): `t2 - t1` as `i64` when
both timestamps are nonzero, else `0`. -/
def MuxSessionState.ping_pong_gap (st : MuxSessionState) : Int :=
  if 0 < st.last_ping_send_time ∧ 0 < st.last_pong_recv_time then
    (st.last_pong_recv_time : Int) - (st.last_ping_send_time : Int)
  else 0

/-- `MuxSessionState::get_io_idle_secs` (lines 78-84): `0` when never active,
else the `u32` subtraction `now - io_active_unix_secs` (wrapping, as compiled
in release mode). -/
def MuxSessionState.get_io_idle_secs (st : MuxSessionState) (now : Nat) : Nat :=
  if st.io_active_unix_secs = 0 then 0
  else (now + 4294967296 - st.io_active_unix_secs) % 4294967296

/-- `MuxSession` (lines 87-94). The `event_tx` handle is identified by the
session `id` (events addressed to this session are recorded as pairs
`(id, event)`). -/
structure MuxSession where
  id : Nat
  pendding_streams : List MuxStream
  stream_id_seed : Nat
  state : MuxSessionState
  max_alive_secs : Nat
  deriving DecidableEq, Repr

/-- The event loop's stream table `HashMap<u32, MuxStream>`, embedded as an
association list (the loop keeps keys unique). -/
abbrev StreamTable := List (Nat × MuxStream)

/-- `HashMap::get` on the stream table. -/
def tableLookup : StreamTable → Nat → Option MuxStream
  | [], _ => none
  | (k, v) :: rest, sid => if k = sid then some v else tableLookup rest sid

/-- `HashMap::remove` on the stream table (removes the entry for the key if
present, otherwise leaves the table unchanged). -/
def tableRemove : StreamTable → Nat → StreamTable
  | [], _ => []
  | (k, v) :: rest, sid => if k = sid then rest else (k, v) :: tableRemove rest sid

/-- `HashMap::insert` on the stream table (replaces any existing entry). -/
def tableInsert (t : StreamTable) (k : Nat) (v : MuxStream) : StreamTable :=
  (k, v) :: tableRemove t k

/-- In-place update of the stream stored under a key (models mutating the
stream obtained from `HashMap::get_mut`). -/
def tableSet : StreamTable → Nat → MuxStream → StreamTable
  | [], _, _ => []
  | (k0, v0) :: rest, k, v => if k0 = k then (k0, v) :: rest else (k0, v0) :: tableSet rest k v

/-- `HashMap::entry(k).or_insert(v)` (line 539): the existing entry wins. -/
def entryOrInsert (t : StreamTable) (k : Nat) (v : MuxStream) : StreamTable :=
  match tableLookup t k with
  | some _ => t
  | none => (k, v) :: t

/-- `hanle_pendding_mux_streams` (lines 138-155): pop every pending stream of
the session (last pushed first) and insert it into the loop's stream table
under its id. The session's pending list is passed in explicitly (the source
fetches it from the registry by channel and session id). -/
def hanle_pendding_mux_streams (pend : List MuxStream) (streams : StreamTable) : StreamTable :=
  pend.reverse.foldl (fun acc s => tableInsert acc s.stream_id s) streams

/-- `handle_syn` (lines 334-365): decode the `ConnectRequest` from the SYN
body; on failure log and return `None`; on success build the `MuxStream`
bound to this session and the SYN's stream id (the spawned relay task is
I/O and outside the model). -/
def handle_syn (channel : String) (session_id : Nat) (ev : Event) : Option MuxStream :=
  match decode_connect_request ev.body with
  | none => none
  | some creq => some (MuxStream.new channel session_id ev.header.stream_id creq)

/-- Result of `handle_fin_event`: the returned bool, the updated stream
table and session state, and the streams on which `close()` was invoked. -/
structure FinResult where
  should_close : Bool
  streams : StreamTable
  state : MuxSessionState
  closedStreams : List MuxStream
  deriving DecidableEq, Repr

/-- `handle_fin_event` (lines 451-464): remove the stream for `sid` from the
table if present and close it; if the session is retired and the table is
now empty, store `closed = true` and report that the loop should exit. -/
def handle_fin_event (sid : Nat) (streams : StreamTable) (st : MuxSessionState) : FinResult :=
  let streams2 := tableRemove streams sid
  let closedS : List MuxStream :=
    match tableLookup streams sid with
    | some s => [s.close]
    | none => []
  if st.retired = true ∧ streams2.isEmpty = true then
    ⟨true, streams2, { st with closed := true }, closedS⟩
  else
    ⟨false, streams2, st, closedS⟩

/-- Result of `handle_routine_event`: the returned bool and the updated
session state. -/
structure RoutineResult where
  should_close : Bool
  state : MuxSessionState
  deriving DecidableEq, Repr

/-- `handle_routine_event` (lines 426-449): should close when
`(retired ∧ table empty) ∨ idle ≥ 300`; in that case store `closed = true`. -/
def handle_routine_event (streams : StreamTable) (st : MuxSessionState) (now : Nat) : RoutineResult :=
  let idle_io_secs := st.get_io_idle_secs now
  if (st.retired = true ∧ streams.isEmpty = true) ∨ 300 ≤ idle_io_secs then
    ⟨true, { st with closed := true }⟩
  else ⟨false, st⟩

/-- `send_local_event` (lines 466-476): encrypt the event and push the byte
buffer onto the transport writer queue (modelled as an unbounded list, so
the send succeeds). -/
def send_local_event (ev : Event) (wctx : CryptoContext) (sendq : List (List Nat)) :
    List (List Nat) :=
  sendq ++ [wctx.encrypt ev]

/-- Result of `handle_local_event` (the returned bool `ok` is the source's
return value: `true` means the loop continues). -/
structure LocalResult where
  ok : Bool
  streams : StreamTable
  state : MuxSessionState
  sendq : List (List Nat)
  pend : List MuxStream
  closedStreams : List MuxStream
  deriving DecidableEq, Repr

/-- `handle_local_event` (lines 478-502): SHUTDOWN exits; SYN drains the
pending streams; FIN runs `handle_fin_event` and exits when it asks to;
ROUTINE runs `handle_routine_event` and returns its negation; every event
other than SHUTDOWN and ROUTINE is then encrypted and forwarded to the
transport writer queue. -/
def handle_local_event (pend : List MuxStream) (streams : StreamTable)
    (st : MuxSessionState) (ev : Event) (wctx : CryptoContext)
    (sendq : List (List Nat)) (now : Nat) : LocalResult :=
  if ev.header.flags = FLAG_SHUTDOWN then
    ⟨false, streams, st, sendq, pend, []⟩
  else
    let streams1 := if ev.header.flags = FLAG_SYN then hanle_pendding_mux_streams pend streams else streams
    let pend1 : List MuxStream := if ev.header.flags = FLAG_SYN then [] else pend
    if ev.header.flags = FLAG_FIN then
      let fr := handle_fin_event ev.header.stream_id streams1 st
      if fr.should_close then
        ⟨false, fr.streams, fr.state, sendq, pend1, fr.closedStreams⟩
      else
        ⟨true, fr.streams, fr.state, send_local_event ev wctx sendq, pend1, fr.closedStreams⟩
    else if ev.header.flags = FLAG_ROUTINE then
      let rr := handle_routine_event streams1 st now
      ⟨!rr.should_close, streams1, rr.state, sendq, pend1, []⟩
    else
      ⟨true, streams1, st, send_local_event ev wctx sendq, pend1, []⟩

/-- Result of one iteration of the `process_event` loop body: `brk = true`
when this iteration breaks out of the loop. -/
structure StepResult where
  brk : Bool
  streams : StreamTable
  state : MuxSessionState
  sendq : List (List Nat)
  pend : List MuxStream
  closedStreams : List MuxStream
  deriving DecidableEq, Repr

/-- One iteration of the `process_event` loop body (lines 516-591) on a
received event: the PING pre-handling (`handle_ping_event`, lines 409-424),
then the local-event path, then the per-flag dispatch of remote events. -/
def process_event_step (channel : String) (tunnel_id : Nat) (wctx : CryptoContext)
    (pend : List MuxStream) (streams : StreamTable) (st : MuxSessionState)
    (ev : Event) (sendq : List (List Nat)) (now : Nat) : StepResult :=
  let st0 := if ev.header.flags = FLAG_PING ∧ ev.remote = false then
    { st with last_ping_send_time := now } else st
  if ev.remote = false then
    let r := handle_local_event pend streams st0 ev wctx sendq now
    ⟨!r.ok, r.streams, r.state, r.sendq, r.pend, r.closedStreams⟩
  else if ev.header.flags = FLAG_SYN then
    match handle_syn channel tunnel_id ev with
    | some stream => ⟨false, entryOrInsert streams stream.stream_id stream, st0, sendq, pend, []⟩
    | none => ⟨false, streams, st0, sendq, pend, []⟩
  else if ev.header.flags = FLAG_FIN then
    let fr := handle_fin_event ev.header.stream_id streams st0
    ⟨fr.should_close, fr.streams, fr.state, sendq, pend, fr.closedStreams⟩
  else if ev.header.flags = FLAG_DATA then
    match tableLookup streams ev.header.stream_id with
    | some stream => ⟨false, tableSet streams ev.header.stream_id (stream.offer_data ev.body), st0, sendq, pend, []⟩
    | none => ⟨false, streams, st0, sendq, pend, []⟩
  else if ev.header.flags = FLAG_PING then
    ⟨false, streams, st0, send_local_event (new_pong_event ev.header.stream_id false) wctx sendq, pend, []⟩
  else if ev.header.flags = FLAG_PONG then
    ⟨false, streams, { st0 with last_pong_recv_time := now }, sendq, pend, []⟩
  else if ev.header.flags = FLAG_WIN_UPDATE then
    match tableLookup streams ev.header.stream_id with
    | some stream => ⟨false, tableSet streams ev.header.stream_id (stream.update_send_window ev.header.len), st0, sendq, pend, []⟩
    | none => ⟨false, streams, st0, sendq, pend, []⟩
  else
    ⟨false, streams, st0, sendq, pend, []⟩

/-- `ChannelMuxSession` (lines 49-52): the per-channel group of session
slots plus the round-robin cursor (`AtomicU32`, held as its `u32` value). -/
structure ChannelMuxSession where
  sessions : List (Option MuxSession)
  cursor : Nat
  deriving DecidableEq, Repr

/-- `ChannelSessionManager` (lines 35-38): the channel map (an association
list standing for the `HashMap`) and the global retired bucket. -/
structure ChannelSessionManager where
  channels : List (String × ChannelMuxSession)
  retired : List MuxSession
  deriving DecidableEq, Repr

/-- `HashMap::get` on the channel map. -/
def getGroup : List (String × ChannelMuxSession) → String → Option ChannelMuxSession
  | [], _ => none
  | (k, g) :: rest, c => if k = c then some g else getGroup rest c

/-- Apply a function to the group stored under a channel name (models
mutation through `HashMap::get_mut`). -/
def updateGroup : List (String × ChannelMuxSession) → String →
    (ChannelMuxSession → ChannelMuxSession) → List (String × ChannelMuxSession)
  | [], _, _ => []
  | (k, g) :: rest, c, f => if k = c then (k, f g) :: rest else (k, g) :: updateGroup rest c f

/-- The slot-filling loop of `store_mux_session` (lines 107-113): overwrite
the first empty slot, otherwise push a new slot at the end. -/
def fillFirstSlot : List (Option MuxSession) → MuxSession → List (Option MuxSession)
  | [], s => [some s]
  | none :: rest, s => some s :: rest
  | some x :: rest, s => some x :: fillFirstSlot rest s

/-- `store_mux_session` (lines 96-115): create the channel group if absent,
then insert the session into the first empty slot (or append). -/
def store_mux_session (channel : String) (session : MuxSession)
    (mgr : ChannelSessionManager) : ChannelSessionManager :=
  match getGroup mgr.channels channel with
  | none =>
    { mgr with channels := mgr.channels ++ [(channel, ⟨[some session], 0⟩)] }
  | some _ =>
    let f : ChannelMuxSession → ChannelMuxSession :=
      fun g => { g with sessions := fillFirstSlot g.sessions session }
    { mgr with channels := updateGroup mgr.channels channel f }

/-- The slot scan of `erase_mux_session` (lines 121-128): `None` out the
first slot holding the session id; `none` when no slot matches. -/
def eraseFromSlots : List (Option MuxSession) → Nat → Option (List (Option MuxSession))
  | [], _ => none
  | none :: rest, sid =>
    match eraseFromSlots rest sid with
    | some rest2 => some (none :: rest2)
    | none => none
  | some ss :: rest, sid =>
    if ss.id = sid then some (none :: rest)
    else
      match eraseFromSlots rest sid with
      | some rest2 => some (some ss :: rest2)
      | none => none

/-- The retired scan of `erase_mux_session` (lines 130-135): remove the
first retired session with the id. -/
def eraseFromRetired : List MuxSession → Nat → List MuxSession
  | [], _ => []
  | s :: rest, sid => if s.id = sid then rest else s :: eraseFromRetired rest sid

/-- `erase_mux_session` (lines 117-136): remove the session by id from the
channel's slots; when no slot of the channel holds it, remove it from the
global retired bucket instead. -/
def erase_mux_session (channel : String) (sid : Nat)
    (mgr : ChannelSessionManager) : ChannelSessionManager :=
  match getGroup mgr.channels channel with
  | some g =>
    match eraseFromSlots g.sessions sid with
    | some slots2 =>
      { mgr with channels := updateGroup mgr.channels channel (fun g0 => { g0 with sessions := slots2 }) }
    | none => { mgr with retired := eraseFromRetired mgr.retired sid }
  | none => { mgr with retired := eraseFromRetired mgr.retired sid }

/-- `get_channel_session_size` (lines 157-168): count of occupied slots. -/
def get_channel_session_size (mgr : ChannelSessionManager) (channel : String) : Nat :=
  match getGroup mgr.channels channel with
  | some g => (g.sessions.filter (fun os => os.isSome)).length
  | none => 0

/-- Two's-complement wrap of an integer into the `i64` range (release-mode
wrapping semantics of `i64` arithmetic). -/
def wrap_i64 (x : Int) : Int := (x + 9223372036854775808) % 18446744073709551616 - 9223372036854775808

/-- The `as u64` cast of an `i64` value. -/
def u64_of_i64 (x : Int) : Nat := (x % 18446744073709551616).toNat

/-- The age threshold of the routine sweep (line 213): `cmp_secs =
max_alive_secs as i64 + rand_inc`, then compared `as u64`. -/
def age_threshold (max_alive_secs : Nat) (rand_inc : Int) : Nat :=
  u64_of_i64 (wrap_i64 (wrap_i64 (max_alive_secs : Int) + rand_inc))

/-- The age-retirement test of `routine_all_sessions` (lines 207-218) for a
session in a channel, given the jitter drawn for it. -/
def ageRetires (channel : String) (jit : Nat → Int) (s : MuxSession) : Bool :=
  decide (0 < s.max_alive_secs ∧ ¬channel = "" ∧
    age_threshold s.max_alive_secs (jit s.id) < s.state.born_elapsed_secs)

/-- Effect of one `routine_all_sessions` sweep on one slot (lines 191-221):
the slot is emptied when the session's heartbeat gap is below `-60` or when
age-based retirement fires. -/
def slotAfterRoutine (channel : String) (jit : Nat → Int) :
    Option MuxSession → Option MuxSession
  | none => none
  | some s =>
    if s.state.ping_pong_gap < -60 then none
    else if ageRetires channel jit s then none
    else some s

/-- The sessions a slot contributes to the retired bucket during one
`routine_all_sessions` sweep (with `retired` stored `true`, lines 197 and 215). -/
def slotRetiredOut (channel : String) (jit : Nat → Int) :
    Option MuxSession → List MuxSession
  | none => []
  | some s =>
    if s.state.ping_pong_gap < -60 then [{ s with state := { s.state with retired := true } }]
    else if ageRetires channel jit s then [{ s with state := { s.state with retired := true } }]
    else []

/-- The actions (events addressed to a session's queue, keyed by session id)
a slot contributes during one `routine_all_sessions` sweep: SHUTDOWN on
heartbeat timeout, else PING (non-empty channel only) and ROUTINE; the
age check runs after those pushes and emits nothing. -/
def slotActions (channel : String) (_jit : Nat → Int) :
    Option MuxSession → List (Nat × Event)
  | none => []
  | some s =>
    if s.state.ping_pong_gap < -60 then [(s.id, new_shutdown_event 0 false)]
    else (if ¬channel = "" then [(s.id, new_ping_event 0 false)] else [])
      ++ [(s.id, new_routine_event 0)]

/-- `routine_all_sessions` (lines 184-234), parameterised by the jitter
`rng.gen_range(-60, 60)` drawn for each session (keyed by session id).
Returns the manager after the sweep together with the actions dispatched
after the lock is released (each a pair of target session id and event):
retiring sessions leave their slots, sessions already in the retired bucket
receive a ROUTINE event, and the newly retired are appended to the bucket. -/
def routine_all_sessions (jit : Nat → Int) (mgr : ChannelSessionManager) :
    ChannelSessionManager × List (Nat × Event) :=
  let channels2 := mgr.channels.map
    (fun p => (p.1, { p.2 with sessions := p.2.sessions.map (slotAfterRoutine p.1 jit) }))
  let moved := mgr.channels.flatMap (fun p => p.2.sessions.flatMap (slotRetiredOut p.1 jit))
  let acts := mgr.channels.flatMap (fun p => p.2.sessions.flatMap (slotActions p.1 jit))
    ++ mgr.retired.map (fun s => (s.id, new_routine_event 0))
  ({ channels := channels2, retired := mgr.retired ++ moved }, acts)

/-- The slot loop of `report_update_window` (lines 292-307), parameterised
by the outcome of `poll_ready` (`ready`, true for `Poll::Ready(Ok(()))`) and
of `try_send` (`sendOk`) on each session's queue. Returns `none` when the
loop falls through, otherwise the returned bool and the delivered events. -/
def ruw_loop (ready sendOk : Nat → Bool) (session_id : Nat) (ev : Event) :
    List (Option MuxSession) → Option (Bool × List (Nat × Event))
  | [] => none
  | none :: rest => ruw_loop ready sendOk session_id ev rest
  | some ss :: rest =>
    if ss.id = session_id then
      if ready ss.id = false then some (false, [])
      else if sendOk ss.id then some (true, [(ss.id, ev)])
      else ruw_loop ready sendOk session_id ev rest
    else ruw_loop ready sendOk session_id ev rest

/-- `report_update_window` (lines 283-310): build the WIN_UPDATE event and
walk the channel's slots; returns the function's bool and the list of
events actually delivered to a session queue. -/
def report_update_window (ready sendOk : Nat → Bool) (channel : String)
    (session_id stream_id window : Nat) (mgr : ChannelSessionManager) :
    Bool × List (Nat × Event) :=
  let ev := new_window_update_event stream_id window false
  match getGroup mgr.channels channel with
  | none => (true, [])
  | some g =>
    match ruw_loop ready sendOk session_id ev g.sessions with
    | some r => r
    | none => (true, [])

/-- Result of `create_stream`: the `Ok` stream or the I/O error message. -/
inductive CreateResult where
  | ok (s : MuxStream)
  | err (msg : String)
  deriving DecidableEq, Repr

/-- Data of a successful `create_stream` pick: the chosen slot index, the
chosen session's id, the constructed stream and the SYN event. -/
structure CreateOut where
  idx : Nat
  session_id : Nat
  stream : MuxStream
  ev : Event
  deriving DecidableEq, Repr

/-- The round-robin probe loop of `create_stream` (lines 249-272): each
iteration reads the `u32` cursor (`fetch_add(1)` with wrap-around), reduces
it modulo the slot count, and on the first occupied slot allocates the
stream id (`stream_id_seed.fetch_add(2)`, wrapping), builds the SYN event
and the pending stream, and pushes the stream onto the session's pending
list. Returns the updated slots, the updated cursor and the pick. -/
def create_stream_loop (channel proto addr : String)
    (sessions : List (Option MuxSession)) (cursor : Nat) :
    Nat → List (Option MuxSession) × Nat × Option CreateOut
  | 0 => (sessions, cursor, none)
  | fuel + 1 =>
    let idx := (cursor % 4294967296) % sessions.length
    let cursor2 := (cursor + 1) % 4294967296
    match sessions[idx]? with
    | some (some s) =>
      let creq : ConnectRequest := ⟨proto, addr⟩
      let cev := new_syn_event s.stream_id_seed creq
      let pendding_stream := MuxStream.new channel s.id cev.header.stream_id creq
      let s2 := { s with
        stream_id_seed := (s.stream_id_seed + 2) % 4294967296
        pendding_streams := s.pendding_streams ++ [pendding_stream] }
      (sessions.set idx (some s2), cursor2, some ⟨idx, s.id, pendding_stream, cev⟩)
    | some none => create_stream_loop channel proto addr sessions cursor2 fuel
    | none => (sessions, cursor2, none)

/-- `create_stream` (lines 236-281): probe the channel's group round-robin
for up to `sessions.len()` attempts; on success send the SYN into the chosen
session's event queue (returned as `(session id, event)` pairs) and return
the stream; otherwise fail with the I/O error `"no channel found."`. -/
def create_stream (channel proto addr : String) (mgr : ChannelSessionManager) :
    CreateResult × ChannelSessionManager × List (Nat × Event) :=
  match getGroup mgr.channels channel with
  | none => (CreateResult.err "no channel found.", mgr, [])
  | some g =>
    let r := create_stream_loop channel proto addr g.sessions g.cursor g.sessions.length
    let f : ChannelMuxSession → ChannelMuxSession :=
      fun g0 => { g0 with sessions := r.1, cursor := r.2.1 }
    let mgr2 := { mgr with channels := updateGroup mgr.channels channel f }
    match r.2.2 with
    | some o => (CreateResult.ok o.stream, mgr2, [(o.session_id, o.ev)])
    | none => (CreateResult.err "no channel found.", mgr2, [])

/-- The initial `stream_id_seed` chosen by `process_rmux_session` (line 656):
`2` on the server side (empty channel), `1` on the client side. -/
def stream_id_seed_init (channel : String) : Nat := if channel = "" then 2 else 1

/-- Closed form of the `n`-th stream id a session of the given channel
allocates: the seed starts at `stream_id_seed_init` and each `create_stream`
advances it by `2` with wrapping `u32` arithmetic
(`stream_id_seed.fetch_add(2)`, line 258). -/
def nth_stream_id (channel : String) (n : Nat) : Nat :=
  (stream_id_seed_init channel + 2 * n) % 4294967296

/-- The ids contributed by one slot of a channel group. -/
def idsOfSlot : Option MuxSession → List Nat
  | none => []
  | some s => [s.id]

/-- The session ids held in a group's slots, in slot order. -/
def slotIds (l : List (Option MuxSession)) : List Nat := l.flatMap idsOfSlot

/-- Every session id present in the registry: all slots of all channel
groups followed by the retired bucket. -/
def allIds (mgr : ChannelSessionManager) : List Nat :=
  mgr.channels.flatMap (fun p => slotIds p.2.sessions) ++ mgr.retired.map MuxSession.id

lemma handle_syn_stream_id {channel : String} {tid : Nat} {ev : Event} {stream : MuxStream}
    (h : handle_syn channel tid ev = some stream) : stream.stream_id = ev.header.stream_id := by
  unfold handle_syn at h
  cases hd : decode_connect_request ev.body with
  | none => rw [hd] at h; simp at h
  | some creq =>
    rw [hd] at h
    simp at h
    subst h
    rfl

/-- Claim C4: processing a ROUTINE event in the event loop reports "should
close" — whereupon the loop stores `closed = true` and exits — if and only
if the session is retired and its stream table is empty, or its I/O idle
time at that moment is at least 300 seconds; otherwise the loop continues
with the closed flag and stream table unchanged by this event. -/
theorem claim_C4 (channel : String) (tunnel_id : Nat) (wctx : CryptoContext)
    (pend : List MuxStream) (streams : StreamTable) (st : MuxSessionState)
    (ev : Event) (sendq : List (List Nat)) (now : Nat)
    (hflag : ev.header.flags = FLAG_ROUTINE) (hrem : ev.remote = false)
    (r : StepResult)
    (hr : r = process_event_step channel tunnel_id wctx pend streams st ev sendq now) :
    (r.brk = true ↔ ((st.retired = true ∧ streams.isEmpty = true) ∨ 300 ≤ st.get_io_idle_secs now))
    ∧ (r.brk = true → r.state.closed = true)
    ∧ (r.brk = false → r.streams = streams ∧ r.state = st ∧ r.sendq = sendq ∧ r.pend = pend) := by
  subst hr
  by_cases hc : (st.retired = true ∧ streams = []) ∨ 300 ≤ st.get_io_idle_secs now
  · simp [process_event_step, handle_local_event, handle_routine_event, hflag, hrem, hc,
      FLAG_ROUTINE, FLAG_PING, FLAG_SHUTDOWN, FLAG_SYN, FLAG_FIN]
  · simp [process_event_step, handle_local_event, handle_routine_event, hflag, hrem, hc,
      FLAG_ROUTINE, FLAG_PING, FLAG_SHUTDOWN, FLAG_SYN, FLAG_FIN]

/-- Claim C5: processing a FIN event (local or remote) carrying stream id
`s` removes the entry for `s` from the stream table if one is present and
closes that stream; if after the removal the session is retired and the
stream table is empty, the closed flag is set to true and the loop exits. -/
theorem claim_C5 (channel : String) (tunnel_id : Nat) (wctx : CryptoContext)
    (pend : List MuxStream) (streams : StreamTable) (st : MuxSessionState)
    (ev : Event) (sendq : List (List Nat)) (now : Nat)
    (hflag : ev.header.flags = FLAG_FIN)
    (r : StepResult)
    (hr : r = process_event_step channel tunnel_id wctx pend streams st ev sendq now) :
    r.streams = tableRemove streams ev.header.stream_id
    ∧ (∀ str, tableLookup streams ev.header.stream_id = some str →
        r.closedStreams = [str.close] ∧ str.close.closed = true)
    ∧ (tableLookup streams ev.header.stream_id = none → r.closedStreams = [])
    ∧ (r.brk = true ↔ (st.retired = true ∧ (tableRemove streams ev.header.stream_id).isEmpty = true))
    ∧ (r.brk = true → r.state.closed = true) := by
  subst hr
  cases hrem : ev.remote <;>
    by_cases hc : st.retired = true ∧ tableRemove streams ev.header.stream_id = [] <;>
      cases hlk : tableLookup streams ev.header.stream_id <;>
        simp [process_event_step, handle_local_event, handle_fin_event, send_local_event,
          hflag, hrem, hc, hlk, MuxStream.close,
          FLAG_FIN, FLAG_PING, FLAG_SHUTDOWN, FLAG_SYN, FLAG_ROUTINE]

/-- Claim C6: when a remote SYN event arrives whose stream id already has an
entry in the loop's stream table, the table is left entirely unchanged
(`or_insert` semantics): the newly constructed `MuxStream` does not replace
the existing stream and every other entry is untouched. -/
theorem claim_C6 (channel : String) (tunnel_id : Nat) (wctx : CryptoContext)
    (pend : List MuxStream) (streams : StreamTable) (st : MuxSessionState)
    (ev : Event) (sendq : List (List Nat)) (now : Nat)
    (hflag : ev.header.flags = FLAG_SYN) (hrem : ev.remote = true)
    (hpresent : (tableLookup streams ev.header.stream_id).isSome = true)
    (r : StepResult)
    (hr : r = process_event_step channel tunnel_id wctx pend streams st ev sendq now) :
    r.streams = streams ∧ r.brk = false ∧ r.state = st ∧ r.sendq = sendq ∧ r.pend = pend := by
  subst hr
  cases hs : handle_syn channel tunnel_id ev with
  | none =>
    simp [process_event_step, hflag, hrem, hs, FLAG_SYN, FLAG_PING]
  | some stream =>
    have hsid := handle_syn_stream_id hs
    have hno : entryOrInsert streams stream.stream_id stream = streams := by
      unfold entryOrInsert
      rw [hsid]
      cases hlk : tableLookup streams ev.header.stream_id with
      | none => rw [hlk] at hpresent; simp at hpresent
      | some v => rfl
    simp [process_event_step, hflag, hrem, hs, hno, FLAG_SYN, FLAG_PING]

/-- Claim C10: a locally produced FIN event that does not close the session
(the session is not retired with an empty table after the removal) is,
after removing and closing the local stream entry, encrypted and forwarded
to the transport writer queue, so the closure reaches the peer. -/
theorem claim_C10 (channel : String) (tunnel_id : Nat) (wctx : CryptoContext)
    (pend : List MuxStream) (streams : StreamTable) (st : MuxSessionState)
    (ev : Event) (sendq : List (List Nat)) (now : Nat)
    (hflag : ev.header.flags = FLAG_FIN) (hrem : ev.remote = false)
    (hnc : ¬(st.retired = true ∧ (tableRemove streams ev.header.stream_id).isEmpty = true))
    (r : StepResult)
    (hr : r = process_event_step channel tunnel_id wctx pend streams st ev sendq now) :
    r.brk = false ∧ r.sendq = sendq ++ [wctx.encrypt ev]
    ∧ r.streams = tableRemove streams ev.header.stream_id := by
  subst hr
  have hnc2 : ¬(st.retired = true ∧ tableRemove streams ev.header.stream_id = []) := by
    simpa using hnc
  simp [process_event_step, handle_local_event, handle_fin_event, send_local_event,
    hflag, hrem, hnc2, FLAG_FIN, FLAG_PING, FLAG_SHUTDOWN, FLAG_SYN, FLAG_ROUTINE]

/-- Fixture: a fresh session state (nothing recorded yet). -/
def exState : MuxSessionState :=
  { last_ping_send_time := 0, last_pong_recv_time := 0, born_elapsed_secs := 0
    retired := false, io_active_unix_secs := 0, closed := false }

/-- Fixture: a retired session state. -/
def exRetiredState : MuxSessionState := { exState with retired := true }

/-- Fixture: a stream with id 3 on session 7. -/
def exStream : MuxStream := MuxStream.new "c" 7 3 ⟨"tcp", "example:80"⟩

/-- Fixture: a stream table holding `exStream` under its id. -/
def exTable : StreamTable := [(3, exStream)]

/-- Fixture: a crypto context. -/
def exCrypto : CryptoContext := ⟨11, 13⟩

theorem claim_C4_witness :
    (process_event_step "c" 7 exCrypto [] [] exRetiredState (new_routine_event 0) [] 0).brk = true
    ∧ (process_event_step "c" 7 exCrypto [] [] exRetiredState (new_routine_event 0) [] 0).state.closed = true := by
  have h := claim_C4 "c" 7 exCrypto [] [] exRetiredState (new_routine_event 0) [] 0 rfl rfl _ rfl
  have hb := h.1.mpr (Or.inl ⟨rfl, rfl⟩)
  exact ⟨hb, h.2.1 hb⟩

theorem claim_C5_witness :
    (process_event_step "c" 7 exCrypto [] exTable exState (new_fin_event 3 false) [] 0).streams
      = tableRemove exTable 3
    ∧ (process_event_step "c" 7 exCrypto [] exTable exState (new_fin_event 3 false) [] 0).closedStreams
      = [exStream.close] := by
  have h := claim_C5 "c" 7 exCrypto [] exTable exState (new_fin_event 3 false) [] 0 rfl _ rfl
  exact ⟨h.1, (h.2.1 exStream (by decide)).1⟩

/-- Fixture: a remote SYN event colliding with `exStream`'s id. -/
def exSynEv : Event :=
  { header := { stream_id := 3, flags := FLAG_SYN, len := 0 }
    body := encode_connect_request ⟨"t", "u"⟩
    remote := true }

theorem claim_C6_witness :
    (process_event_step "c" 7 exCrypto [] exTable exState exSynEv [] 0).streams = exTable := by
  have h := claim_C6 "c" 7 exCrypto [] exTable exState exSynEv [] 0 rfl rfl (by decide) _ rfl
  exact h.1

theorem claim_C10_witness :
    (process_event_step "c" 7 exCrypto [] exTable exState (new_fin_event 3 false) [] 0).sendq
      = [exCrypto.encrypt (new_fin_event 3 false)] := by
  have h := claim_C10 "c" 7 exCrypto [] exTable exState (new_fin_event 3 false) [] 0 rfl rfl
    (by decide) _ rfl
  exact h.2.1

/-- The sessions of a slot list that carry a given session id (in slot order). -/
def matchingIn (l : List (Option MuxSession)) (sid : Nat) : List MuxSession :=
  (l.filterMap (fun o => o)).filter (fun s => decide (s.id = sid))

/-- The sessions of a channel group that carry a given session id. -/
def matchingSessions (g : ChannelMuxSession) (sid : Nat) : List MuxSession :=
  matchingIn g.sessions sid

lemma ruw_loop_no_match (ready sendOk : Nat → Bool) (sid : Nat) (ev : Event) :
    ∀ l : List (Option MuxSession), matchingIn l sid = [] →
      ruw_loop ready sendOk sid ev l = none := by
  intro l
  induction l with
  | nil => intro _; rfl
  | cons hd tl ih =>
    cases hd with
    | none =>
      intro h
      simp only [matchingIn, List.filterMap_cons] at h
      exact ih h
    | some ss =>
      intro h
      simp only [matchingIn, List.filterMap_cons, List.filter_cons] at h
      by_cases hid : ss.id = sid
      · rw [if_pos (by simpa using hid)] at h
        exact absurd h (List.cons_ne_nil ss _)
      · rw [if_neg (by simpa using hid)] at h
        simpa [ruw_loop, hid] using ih h

lemma ruw_loop_single (ready sendOk : Nat → Bool) (sid : Nat) (ev : Event) (m : MuxSession) :
    ∀ l : List (Option MuxSession), matchingIn l sid = [m] →
      ruw_loop ready sendOk sid ev l =
        (if ready m.id = false then some (false, [])
         else if sendOk m.id then some (true, [(m.id, ev)])
         else none) := by
  intro l
  induction l with
  | nil => intro h; exact absurd h.symm (List.cons_ne_nil m _)
  | cons hd tl ih =>
    cases hd with
    | none =>
      intro h
      simp only [matchingIn, List.filterMap_cons] at h
      simpa [ruw_loop] using ih h
    | some ss =>
      intro h
      simp only [matchingIn, List.filterMap_cons, List.filter_cons] at h
      by_cases hid : ss.id = sid
      · rw [if_pos (by simpa using hid)] at h
        have hm : ss = m := (List.cons_eq_cons.mp h).1
        have htl : matchingIn tl sid = [] := (List.cons_eq_cons.mp h).2
        subst hm
        subst hid
        by_cases hrdy : ready ss.id = false
        · simp [ruw_loop, hrdy]
        · by_cases hsnd : sendOk ss.id = true
          · simp [ruw_loop, hrdy, hsnd]
          · have hloop := ruw_loop_no_match ready sendOk ss.id ev tl htl
            simp [ruw_loop, hrdy, hsnd, hloop]
      · rw [if_neg (by simpa using hid)] at h
        simpa [ruw_loop, hid] using ih h

/-- Claim C1 (amended): `report_update_window` returns `false` exactly when
the channel has a session matching `session_id` whose event queue did not
report ready capacity (`poll_ready` not `Ready(Ok)`); when the queue
reported ready but the `try_send` raced and failed, the update is silently
dropped and the function returns `true`; and it returns `true` when the
event is delivered or when no matching channel or session exists. -/
theorem claim_C1 (ready sendOk : Nat → Bool) (channel : String)
    (session_id stream_id window : Nat) (mgr : ChannelSessionManager) :
    (getGroup mgr.channels channel = none →
      report_update_window ready sendOk channel session_id stream_id window mgr = (true, []))
    ∧ (∀ g, getGroup mgr.channels channel = some g →
        matchingSessions g session_id = [] →
        report_update_window ready sendOk channel session_id stream_id window mgr = (true, []))
    ∧ (∀ g m, getGroup mgr.channels channel = some g →
        matchingSessions g session_id = [m] →
        report_update_window ready sendOk channel session_id stream_id window mgr =
          (if ready m.id = false then (false, [])
           else if sendOk m.id = true then
             (true, [(m.id, new_window_update_event stream_id window false)])
           else (true, []))) := by
  refine ⟨?_, ?_, ?_⟩
  · intro hG
    simp [report_update_window, hG]
  · intro g hG hM
    have := ruw_loop_no_match ready sendOk session_id
      (new_window_update_event stream_id window false) g.sessions hM
    simp [report_update_window, hG, this]
  · intro g m hG hM
    have := ruw_loop_single ready sendOk session_id
      (new_window_update_event stream_id window false) m g.sessions hM
    by_cases hrdy : ready m.id = false
    · simp [report_update_window, hG, this, hrdy]
    · by_cases hsnd : sendOk m.id = true
      · simp [report_update_window, hG, this, hrdy, hsnd]
      · simp [report_update_window, hG, this, hrdy, hsnd]

/-- Fixture: a session with id 5 in channel "c". -/
def exSession5 : MuxSession := ⟨5, [], 1, exState, 0⟩

/-- Fixture: a manager whose channel "c" holds only `exSession5`. -/
def exMgrC1 : ChannelSessionManager := ⟨[("c", ⟨[some exSession5], 0⟩)], []⟩

/-- Counterexample to claim C1 as stated: channel "c" does hold the session
with id 5 (so a matching session exists), its queue does not report ready
capacity (`poll_ready` is not `Ready(Ok)`), no try-send is attempted, and
the function returns `false` with nothing delivered — yet the claim allows
`false` only when the queue was known-ready and the try-send failed. -/
theorem claim_C1_counterexample :
    report_update_window (fun _ => false) (fun _ => true) "c" 5 9 1000 exMgrC1 = (false, [])
    ∧ matchingSessions ⟨[some exSession5], 0⟩ 5 = [exSession5]
    ∧ getGroup exMgrC1.channels "c" = some ⟨[some exSession5], 0⟩ := by
  refine ⟨by decide, by decide, by decide⟩

theorem claim_C1_witness :
    report_update_window (fun _ => true) (fun _ => true) "c" 5 9 1000 exMgrC1
      = (true, [(5, new_window_update_event 9 1000 false)]) := by
  have h := (claim_C1 (fun _ => true) (fun _ => true) "c" 5 9 1000 exMgrC1).2.2
    ⟨[some exSession5], 0⟩ exSession5 (by decide) (by decide)
  simpa using h

lemma mem_of_getElem_some {α : Type} {l : List α} {i : Nat} {a : α}
    (h : l[i]? = some a) : a ∈ l := by
  rcases List.getElem?_eq_some_iff.mp h with ⟨hlt, hv⟩
  subst hv
  exact List.getElem_mem hlt

lemma getGroup_mem {l : List (String × ChannelMuxSession)} {c : String}
    {g : ChannelMuxSession} (h : getGroup l c = some g) : (c, g) ∈ l := by
  induction l with
  | nil => simp [getGroup] at h
  | cons hd tl ih =>
    obtain ⟨k, g0⟩ := hd
    by_cases hk : k = c
    · subst hk
      simp [getGroup] at h
      subst h
      exact List.mem_cons_self _ _
    · simp [getGroup, hk] at h
      exact List.mem_cons_of_mem _ (ih h)

lemma getGroup_map {l : List (String × ChannelMuxSession)} {c : String}
    {g : ChannelMuxSession} (f : String → ChannelMuxSession → ChannelMuxSession)
    (h : getGroup l c = some g) :
    getGroup (l.map (fun p => (p.1, f p.1 p.2))) c = some (f c g) := by
  induction l with
  | nil => simp [getGroup] at h
  | cons hd tl ih =>
    obtain ⟨k, g0⟩ := hd
    by_cases hk : k = c
    · subst hk
      simp [getGroup] at h
      subst h
      simp [getGroup]
    · simp [getGroup, hk] at h
      simpa [getGroup, hk] using ih h

lemma wrap_i64_eq (x : Int) (h1 : -9223372036854775808 ≤ x)
    (h2 : x < 9223372036854775808) : wrap_i64 x = x := by
  unfold wrap_i64
  rw [Int.emod_eq_of_lt (by omega) (by omega)]
  omega

lemma u64_of_i64_eq (x : Int) (h1 : 0 ≤ x) (h2 : x < 18446744073709551616) :
    u64_of_i64 x = x.toNat := by
  unfold u64_of_i64
  rw [Int.emod_eq_of_lt h1 h2]

lemma age_threshold_of_ge {M : Nat} {j : Int} (hj1 : -60 ≤ j) (hj2 : j < 60)
    (hM : 60 ≤ M) (hMhi : (M : Int) + 60 < 9223372036854775808) :
    age_threshold M j = ((M : Int) + j).toNat := by
  unfold age_threshold
  rw [wrap_i64_eq (M : Int) (by omega) (by omega)]
  rw [wrap_i64_eq ((M : Int) + j) (by omega) (by omega)]
  rw [u64_of_i64_eq ((M : Int) + j) (by omega) (by omega)]

/-- Claim C2 (amended): for a session with `max_alive_secs = M` where
`60 ≤ M` (and `M + 60` within the `i64` range), in a non-empty channel and
with a healthy heartbeat, no sweep retires it by aging before age `M - 60`,
and every sweep at age at least `M + 60` retires it into the global retired
bucket. For `0 < M < 60` the guarantee fails: a jitter `j` with `M + j < 0`
makes the comparison threshold `(M + j) as u64` wrap to a huge value, so the
session is never age-retired by such a sweep (see the counterexample). -/
theorem claim_C2 (mgr : ChannelSessionManager) (c : String) (g : ChannelMuxSession)
    (i : Nat) (s : MuxSession) (jit : Nat → Int) (M : Nat)
    (hG : getGroup mgr.channels c = some g)
    (hS : g.sessions[i]? = some (some s))
    (hc : ¬c = "")
    (hM : s.max_alive_secs = M) (hM60 : 60 ≤ M)
    (hMhi : (M : Int) + 60 < 9223372036854775808)
    (hgap : -60 ≤ s.state.ping_pong_gap)
    (hj1 : -60 ≤ jit s.id) (hj2 : jit s.id < 60) :
    (s.state.born_elapsed_secs < M - 60 →
      ∃ g2, getGroup (routine_all_sessions jit mgr).1.channels c = some g2 ∧
        g2.sessions[i]? = some (some s))
    ∧ (M + 60 ≤ s.state.born_elapsed_secs →
      (∃ g2, getGroup (routine_all_sessions jit mgr).1.channels c = some g2 ∧
        g2.sessions[i]? = some none)
      ∧ { s with state := { s.state with retired := true } } ∈ (routine_all_sessions jit mgr).1.retired) := by
  have hth := age_threshold_of_ge hj1 hj2 hM60 hMhi
  have hgap2 : ¬s.state.ping_pong_gap < -60 := by omega
  constructor
  · intro hlt
    have hage : ageRetires c jit s = false := by
      unfold ageRetires
      simp only [decide_eq_false_iff_not]
      intro hcontra
      rcases hcontra with ⟨_, _, hlt2⟩
      rw [hM, hth] at hlt2
      omega
    refine ⟨{ g with sessions := g.sessions.map (slotAfterRoutine c jit) }, ?_, ?_⟩
    · exact getGroup_map (fun c0 g0 => { g0 with sessions := g0.sessions.map (slotAfterRoutine c0 jit) }) hG
    · rw [List.getElem?_map, hS]
      simp [slotAfterRoutine, hgap2, hage]
  · intro hge
    have hage : ageRetires c jit s = true := by
      unfold ageRetires
      simp only [decide_eq_true_eq]
      refine ⟨by omega, hc, ?_⟩
      rw [hM, hth]
      omega
    constructor
    · refine ⟨{ g with sessions := g.sessions.map (slotAfterRoutine c jit) }, ?_, ?_⟩
      · exact getGroup_map (fun c0 g0 => { g0 with sessions := g0.sessions.map (slotAfterRoutine c0 jit) }) hG
      · rw [List.getElem?_map, hS]
        simp [slotAfterRoutine, hgap2, hage]
    · have hmem : (c, g) ∈ mgr.channels := getGroup_mem hG
      have hsmem : (some s) ∈ g.sessions := mem_of_getElem_some hS
      apply List.mem_append_right
      refine List.mem_flatMap.mpr ⟨(c, g), hmem, ?_⟩
      refine List.mem_flatMap.mpr ⟨some s, hsmem, ?_⟩
      simp [slotRetiredOut, hgap2, hage]

/-- Fixture: a session with `max_alive_secs = 1` that is already 61 seconds
old (61 = M + 60) and has a healthy heartbeat. -/
def exAgedSession : MuxSession := ⟨1, [], 1, { exState with born_elapsed_secs := 61 }, 1⟩

/-- Fixture: a manager whose non-empty channel "c" holds only `exAgedSession`. -/
def exMgrC2 : ChannelSessionManager := ⟨[("c", ⟨[some exAgedSession], 0⟩)], []⟩

/-- Counterexample to claim C2 as stated: `max_alive_secs = M = 1 > 0`, the
channel is non-empty, the session's age is `61 ≥ M + 60`, the jitter `-60`
lies in `[-60, 60)`, yet the sweep does not retire the session: the slot is
unchanged and the retired bucket stays empty, because the signed threshold
`M + jitter = -59` wraps to `2^64 - 59` under the `as u64` cast. -/
theorem claim_C2_counterexample :
    (routine_all_sessions (fun _ => -60) exMgrC2).1.retired = []
    ∧ getGroup (routine_all_sessions (fun _ => -60) exMgrC2).1.channels "c"
        = some ⟨[some exAgedSession], 0⟩
    ∧ exAgedSession.max_alive_secs = 1
    ∧ exAgedSession.state.born_elapsed_secs = 61 := by
  refine ⟨by decide, by decide, by decide, by decide⟩

/-- Fixture: a session with `max_alive_secs = 3600` that is 3660 seconds old. -/
def exAgedSession2 : MuxSession := ⟨2, [], 1, { exState with born_elapsed_secs := 3660 }, 3600⟩

/-- Fixture: a manager whose channel "c" holds only `exAgedSession2`. -/
def exMgrC2w : ChannelSessionManager := ⟨[("c", ⟨[some exAgedSession2], 0⟩)], []⟩

theorem claim_C2_witness :
    (∃ g2, getGroup (routine_all_sessions (fun _ => 0) exMgrC2w).1.channels "c" = some g2 ∧
      g2.sessions[0]? = some none)
    ∧ { exAgedSession2 with state := { exAgedSession2.state with retired := true } }
        ∈ (routine_all_sessions (fun _ => 0) exMgrC2w).1.retired := by
  exact (claim_C2 exMgrC2w "c" ⟨[some exAgedSession2], 0⟩ 0 exAgedSession2 (fun _ => 0) 3600
    (by decide) (by decide) (by decide) rfl (by decide) (by decide) (by decide)
    (by decide) (by decide)).2 (by decide)

/-- Claim C3: during a single `routine_all_sessions` sweep, every active
session whose `ping_pong_gap()` is strictly below `-60` has a SHUTDOWN event
enqueued to its event queue, has its retired flag set, and is moved from its
channel slot into the global retired bucket, and it is not sent a PING or
ROUTINE event in that same sweep. (The uniqueness hypotheses say the
session's id — which stands for its event queue handle — is not shared by
another stored session.) -/
theorem claim_C3 (mgr : ChannelSessionManager) (c : String) (g : ChannelMuxSession)
    (i : Nat) (s : MuxSession) (jit : Nat → Int)
    (hG : getGroup mgr.channels c = some g)
    (hS : g.sessions[i]? = some (some s))
    (hgap : s.state.ping_pong_gap < -60)
    (hUniq : ∀ p ∈ mgr.channels, ∀ s2 : MuxSession, some s2 ∈ p.2.sessions →
      s2.id = s.id → s2 = s)
    (hRet : ∀ r0 ∈ mgr.retired, ¬r0.id = s.id) :
    ((s.id, new_shutdown_event 0 false) ∈ (routine_all_sessions jit mgr).2)
    ∧ (∃ g2, getGroup (routine_all_sessions jit mgr).1.channels c = some g2 ∧
        g2.sessions[i]? = some none)
    ∧ ({ s with state := { s.state with retired := true } } ∈ (routine_all_sessions jit mgr).1.retired)
    ∧ ((s.id, new_ping_event 0 false) ∉ (routine_all_sessions jit mgr).2)
    ∧ ((s.id, new_routine_event 0) ∉ (routine_all_sessions jit mgr).2) := by
  have hmem : (c, g) ∈ mgr.channels := getGroup_mem hG
  have hsmem : (some s) ∈ g.sessions := mem_of_getElem_some hS
  refine ⟨?_, ?_, ?_, ?_, ?_⟩
  · apply List.mem_append_left
    refine List.mem_flatMap.mpr ⟨(c, g), hmem, ?_⟩
    refine List.mem_flatMap.mpr ⟨some s, hsmem, ?_⟩
    simp [slotActions, hgap]
  · refine ⟨{ g with sessions := g.sessions.map (slotAfterRoutine c jit) },
      getGroup_map (fun c0 g0 => { g0 with sessions := g0.sessions.map (slotAfterRoutine c0 jit) }) hG, ?_⟩
    rw [List.getElem?_map, hS]
    simp [slotAfterRoutine, hgap]
  · apply List.mem_append_right
    refine List.mem_flatMap.mpr ⟨(c, g), hmem, ?_⟩
    refine List.mem_flatMap.mpr ⟨some s, hsmem, ?_⟩
    simp [slotRetiredOut, hgap]
  · intro hin
    rcases List.mem_append.mp hin with hin | hin
    · rcases List.mem_flatMap.mp hin with ⟨p, hp, hin2⟩
      rcases List.mem_flatMap.mp hin2 with ⟨os, hos, hin3⟩
      cases os with
      | none => simp [slotActions] at hin3
      | some s2 =>
        by_cases hg2 : s2.state.ping_pong_gap < -60
        · simp [slotActions, hg2, new_shutdown_event, new_ping_event,
            FLAG_SHUTDOWN, FLAG_PING] at hin3
        · by_cases hch : p.1 = ""
          · simp [slotActions, hg2, hch, new_routine_event, new_ping_event,
              FLAG_ROUTINE, FLAG_PING] at hin3
          · simp [slotActions, hg2, hch, new_routine_event, new_ping_event,
              FLAG_ROUTINE, FLAG_PING] at hin3
            have hs2 : s2 = s := hUniq p hp s2 hos hin3.symm
            rw [hs2] at hg2
            exact hg2 hgap
    · rcases List.mem_map.mp hin with ⟨r0, hr0, heq⟩
      simp [new_routine_event, new_ping_event, FLAG_ROUTINE, FLAG_PING] at heq
  · intro hin
    rcases List.mem_append.mp hin with hin | hin
    · rcases List.mem_flatMap.mp hin with ⟨p, hp, hin2⟩
      rcases List.mem_flatMap.mp hin2 with ⟨os, hos, hin3⟩
      cases os with
      | none => simp [slotActions] at hin3
      | some s2 =>
        by_cases hg2 : s2.state.ping_pong_gap < -60
        · simp [slotActions, hg2, new_shutdown_event, new_routine_event,
            FLAG_SHUTDOWN, FLAG_ROUTINE] at hin3
        · by_cases hch : p.1 = ""
          all_goals
            simp [slotActions, hg2, hch, new_routine_event, new_ping_event,
              FLAG_ROUTINE, FLAG_PING] at hin3
          all_goals
            have hs2 : s2 = s := hUniq p hp s2 hos hin3.symm
          all_goals
            rw [hs2] at hg2
          all_goals
            exact hg2 hgap
    · rcases List.mem_map.mp hin with ⟨r0, hr0, heq⟩
      simp [new_routine_event] at heq
      exact hRet r0 hr0 heq

/-- Fixture: a session with a failed heartbeat (`gap = 900 - 1000 = -100`). -/
def exHBSession : MuxSession :=
  ⟨9, [], 1, { exState with last_ping_send_time := 1000, last_pong_recv_time := 900 }, 0⟩

/-- Fixture: a manager whose channel "c" holds only `exHBSession`. -/
def exMgrC3 : ChannelSessionManager := ⟨[("c", ⟨[some exHBSession], 0⟩)], []⟩

theorem claim_C3_witness :
    ((9, new_shutdown_event 0 false) ∈ (routine_all_sessions (fun _ => 0) exMgrC3).2)
    ∧ ((9, new_ping_event 0 false) ∉ (routine_all_sessions (fun _ => 0) exMgrC3).2) := by
  have h := claim_C3 exMgrC3 "c" ⟨[some exHBSession], 0⟩ 0 exHBSession (fun _ => 0)
    (by decide) (by decide) (by decide)
    (by
      intro p hp s2 hs2 hid
      simp [exMgrC3] at hp
      rw [hp] at hs2
      simp at hs2
      exact hs2)
    (by intro r0 hr0 _; simp [exMgrC3] at hr0)
  exact ⟨h.1, h.2.2.2.1⟩

lemma getGroup_updateGroup {l : List (String × ChannelMuxSession)} {c : String}
    {g : ChannelMuxSession} (f : ChannelMuxSession → ChannelMuxSession)
    (h : getGroup l c = some g) :
    getGroup (updateGroup l c f) c = some (f g) := by
  induction l with
  | nil => simp [getGroup] at h
  | cons hd tl ih =>
    obtain ⟨k, g0⟩ := hd
    by_cases hk : k = c
    · subst hk
      simp [getGroup] at h
      subst h
      simp [updateGroup, getGroup]
    · simp [getGroup, hk] at h
      simpa [updateGroup, getGroup, hk] using ih h

lemma probe_hit {len i a : Nat} (hi : i < len) (ha : a < len) :
    (a + (i + len - a) % len) % len = i := by
  rcases le_or_lt a i with h | h
  · have h1 : i + len - a = (i - a) + len := by omega
    rw [h1, Nat.add_mod_right]
    have h2 : i - a < len := by omega
    rw [Nat.mod_eq_of_lt h2]
    have h3 : a + (i - a) = i := by omega
    rw [h3, Nat.mod_eq_of_lt hi]
  · have h1 : i + len - a < len := by omega
    rw [Nat.mod_eq_of_lt h1]
    have h2 : a + (i + len - a) = i + len := by omega
    rw [h2, Nat.add_mod_right, Nat.mod_eq_of_lt hi]

lemma probe_covers {len i cursor : Nat} (hi : i < len) (hnw : cursor + len ≤ 4294967296) :
    ∃ k, k < len ∧ ((cursor + k) % 4294967296) % len = i := by
  have hlen : 0 < len := by omega
  have halt : cursor % len < len := Nat.mod_lt _ hlen
  have hklt : (i + len - cursor % len) % len < len := Nat.mod_lt _ hlen
  refine ⟨(i + len - cursor % len) % len, hklt, ?_⟩
  have hsmall : cursor + (i + len - cursor % len) % len < 4294967296 := by omega
  rw [Nat.mod_eq_of_lt hsmall, Nat.add_mod cursor, Nat.mod_eq_of_lt hklt]
  exact probe_hit hi halt

lemma create_stream_loop_some {channel proto addr : String}
    {sessions : List (Option MuxSession)} {out : CreateOut} :
    ∀ fuel cursor,
      (create_stream_loop channel proto addr sessions cursor fuel).2.2 = some out →
      ∃ s : MuxSession, sessions[out.idx]? = some (some s)
        ∧ out.session_id = s.id
        ∧ out.ev = new_syn_event s.stream_id_seed ⟨proto, addr⟩
        ∧ out.stream = MuxStream.new channel s.id s.stream_id_seed ⟨proto, addr⟩
        ∧ (create_stream_loop channel proto addr sessions cursor fuel).1 =
            sessions.set out.idx (some { s with
              stream_id_seed := (s.stream_id_seed + 2) % 4294967296
              pendding_streams := s.pendding_streams
                ++ [MuxStream.new channel s.id s.stream_id_seed ⟨proto, addr⟩] }) := by
  intro fuel
  induction fuel with
  | zero => intro cursor h; simp [create_stream_loop] at h
  | succ f ih =>
    intro cursor h
    cases hslot : sessions[(cursor % 4294967296) % sessions.length]? with
    | none =>
      simp only [create_stream_loop, hslot] at h
      exact absurd h (by simp)
    | some os =>
      cases os with
      | none =>
        simp only [create_stream_loop, hslot] at h ⊢
        exact ih ((cursor + 1) % 4294967296) h
      | some s =>
        simp only [create_stream_loop, hslot] at h ⊢
        obtain ⟨rfl⟩ : out = ⟨(cursor % 4294967296) % sessions.length, s.id,
            MuxStream.new channel s.id s.stream_id_seed ⟨proto, addr⟩,
            new_syn_event s.stream_id_seed ⟨proto, addr⟩⟩ := by
          exact (Option.some.injEq _ _ ▸ h).symm
        exact ⟨s, hslot, rfl, rfl, rfl, rfl⟩

lemma create_stream_loop_all_none {channel proto addr : String}
    {sessions : List (Option MuxSession)} (hall : ∀ os ∈ sessions, os = none) :
    ∀ fuel cursor,
      (create_stream_loop channel proto addr sessions cursor fuel).2.2 = none := by
  intro fuel
  induction fuel with
  | zero => intro cursor; rfl
  | succ f ih =>
    intro cursor
    cases hslot : sessions[(cursor % 4294967296) % sessions.length]? with
    | none => simp only [create_stream_loop, hslot]
    | some os =>
      have hos : os = none := hall os (mem_of_getElem_some hslot)
      subst hos
      simp only [create_stream_loop, hslot]
      exact ih ((cursor + 1) % 4294967296)

lemma create_stream_loop_finds {channel proto addr : String}
    {sessions : List (Option MuxSession)} :
    ∀ fuel cursor,
      (∃ k, k < fuel ∧ ∃ s, sessions[((cursor + k) % 4294967296) % sessions.length]? = some (some s)) →
      ∃ out, (create_stream_loop channel proto addr sessions cursor fuel).2.2 = some out := by
  intro fuel
  induction fuel with
  | zero =>
    rintro cursor ⟨k, hk, _⟩
    omega
  | succ f ih =>
    rintro cursor ⟨k, hk, s, hs⟩
    cases hslot : sessions[(cursor % 4294967296) % sessions.length]? with
    | none =>
      cases k with
      | zero => rw [Nat.add_zero] at hs; rw [hslot] at hs; exact absurd hs (by simp)
      | succ k2 =>
        have hlen : 0 < sessions.length := by
          rcases List.getElem?_eq_some_iff.mp hs with ⟨hlt, _⟩
          omega
        have hidx : (cursor % 4294967296) % sessions.length < sessions.length :=
          Nat.mod_lt _ hlen
        rw [List.getElem?_eq_none_iff] at hslot
        omega
    | some os =>
      cases os with
      | some s0 =>
        refine ⟨⟨(cursor % 4294967296) % sessions.length, s0.id,
          MuxStream.new channel s0.id s0.stream_id_seed ⟨proto, addr⟩,
          new_syn_event s0.stream_id_seed ⟨proto, addr⟩⟩, ?_⟩
        simp only [create_stream_loop, hslot]
        rfl
      | none =>
        cases k with
        | zero => rw [Nat.add_zero] at hs; rw [hslot] at hs; simp at hs
        | succ k2 =>
          simp only [create_stream_loop, hslot]
          apply ih
          refine ⟨k2, by omega, s, ?_⟩
          have harith : ((cursor + 1) % 4294967296 + k2) % 4294967296
              = (cursor + (k2 + 1)) % 4294967296 := by
            rw [Nat.mod_add_mod]
            congr 1
            omega
          rw [harith]
          exact hs

/-- Claim C7 (amended): `create_stream` fails with the I/O error
`"no channel found."` whenever no group is registered for the channel or
every slot of the group is empty; conversely, provided the group's `u32`
cursor plus the slot count does not exceed `2^32` (so the cursor does not
wrap around during the probe loop), an occupied slot guarantees success,
and every success selects a stored session, builds the stream from that
session's id and stream-id seed, pushes it onto that session's pending
list, and sends the SYN event into that session's event queue. When the
cursor wraps mid-probe the round-robin scan can miss occupied slots and
return the error even though a session exists (see the counterexample). -/
theorem claim_C7 (mgr : ChannelSessionManager) (channel proto addr : String) :
    (getGroup mgr.channels channel = none →
      (create_stream channel proto addr mgr).1 = CreateResult.err "no channel found.")
    ∧ (∀ g, getGroup mgr.channels channel = some g → (∀ os ∈ g.sessions, os = none) →
      (create_stream channel proto addr mgr).1 = CreateResult.err "no channel found.")
    ∧ (∀ g, getGroup mgr.channels channel = some g →
        g.cursor + g.sessions.length ≤ 4294967296 →
        (∃ os ∈ g.sessions, os.isSome = true) →
        ∃ stream, (create_stream channel proto addr mgr).1 = CreateResult.ok stream)
    ∧ (∀ g stream, getGroup mgr.channels channel = some g →
        (create_stream channel proto addr mgr).1 = CreateResult.ok stream →
        ∃ i s, g.sessions[i]? = some (some s)
          ∧ stream = MuxStream.new channel s.id s.stream_id_seed ⟨proto, addr⟩
          ∧ (create_stream channel proto addr mgr).2.2
              = [(s.id, new_syn_event s.stream_id_seed ⟨proto, addr⟩)]
          ∧ ∃ g2, getGroup (create_stream channel proto addr mgr).2.1.channels channel = some g2
            ∧ g2.sessions = g.sessions.set i (some { s with
                stream_id_seed := (s.stream_id_seed + 2) % 4294967296
                pendding_streams := s.pendding_streams
                  ++ [MuxStream.new channel s.id s.stream_id_seed ⟨proto, addr⟩] })) := by
  refine ⟨?_, ?_, ?_, ?_⟩
  · intro hG
    simp [create_stream, hG]
  · intro g hG hall
    have hnone := @create_stream_loop_all_none channel proto addr g.sessions hall
      g.sessions.length g.cursor
    simp [create_stream, hG, hnone]
  · intro g hG hnw hex
    rcases hex with ⟨os, hos, hsome⟩
    rcases Option.isSome_iff_exists.mp hsome with ⟨s, rfl⟩
    rcases List.mem_iff_getElem?.mp hos with ⟨i, hi⟩
    have hilt : i < g.sessions.length := (List.getElem?_eq_some_iff.mp hi).1
    rcases probe_covers hilt hnw with ⟨k, hk, hkeq⟩
    have hfind : ∃ out, (create_stream_loop channel proto addr g.sessions g.cursor
        g.sessions.length).2.2 = some out := by
      apply create_stream_loop_finds
      exact ⟨k, hk, s, by rw [hkeq]; exact hi⟩
    rcases hfind with ⟨out, hout⟩
    refine ⟨out.stream, ?_⟩
    simp [create_stream, hG, hout]
  · intro g stream hG hok
    cases hout : (create_stream_loop channel proto addr g.sessions g.cursor
        g.sessions.length).2.2 with
    | none => simp [create_stream, hG, hout] at hok
    | some out =>
      have hstream : stream = out.stream := by
        simp [create_stream, hG, hout] at hok
        exact hok.symm
      rcases create_stream_loop_some g.sessions.length g.cursor hout with
        ⟨s, hslot, hsid, hev, hstr, hset⟩
      refine ⟨out.idx, s, hslot, by rw [hstream, hstr], ?_, ?_⟩
      · simp [create_stream, hG, hout, hsid, hev]
      · refine ⟨{ g with
          sessions := (create_stream_loop channel proto addr g.sessions g.cursor
            g.sessions.length).1
          cursor := (create_stream_loop channel proto addr g.sessions g.cursor
            g.sessions.length).2.1 }, ?_, ?_⟩
        · simp only [create_stream, hG, hout]
          exact getGroup_updateGroup _ hG
        · simpa using hset

/-- Fixture: a session with id 7 and seed 1. -/
def exSession7 : MuxSession := ⟨7, [], 1, exState, 0⟩

/-- Fixture: a channel group with two empty slots, one occupied slot, and
the round-robin cursor at `u32::MAX`. -/
def exGroupC7 : ChannelMuxSession := ⟨[none, none, some exSession7], 4294967295⟩

/-- Fixture: a manager holding `exGroupC7` under channel "c". -/
def exMgrC7 : ChannelSessionManager := ⟨[("c", exGroupC7)], []⟩

/-- Counterexample to claim C7 as stated: channel "c" has a registered group
with an occupied slot, yet `create_stream` returns the error `"no channel
found."`. The cursor `2^32 - 1` wraps during the three probes: the probed
indices are `(2^32-1) % 3 = 0`, `0 % 3 = 0` and `1 % 3 = 1`, so the
occupied slot 2 is never probed. -/
theorem claim_C7_counterexample :
    (create_stream "c" "tcp" "host:80" exMgrC7).1 = CreateResult.err "no channel found."
    ∧ some exSession7 ∈ exGroupC7.sessions
    ∧ getGroup exMgrC7.channels "c" = some exGroupC7 := by
  refine ⟨by decide, by decide, by decide⟩

/-- Fixture: like `exGroupC7` but with the cursor at 0 (no wrap-around). -/
def exMgrC7w : ChannelSessionManager := ⟨[("c", ⟨[none, none, some exSession7], 0⟩)], []⟩

theorem claim_C7_witness :
    (∃ stream, (create_stream "c" "tcp" "host:80" exMgrC7w).1 = CreateResult.ok stream)
    ∧ (create_stream "" "tcp" "host:80" exMgrC7w).1 = CreateResult.err "no channel found." := by
  constructor
  · exact (claim_C7 exMgrC7w "c" "tcp" "host:80").2.2.1 ⟨[none, none, some exSession7], 0⟩
      (by decide) (by decide) ⟨some exSession7, by decide, by decide⟩
  · exact (claim_C7 exMgrC7w "" "tcp" "host:80").1 (by decide)

/-- Claim C9 (amended): every stream id allocated by `create_stream` is odd
when the session's channel is non-empty (client side, seed 1) and even when
the channel is empty (server side, seed 2); each allocation returns the
current seed and advances it by exactly 2 modulo `2^32`
(`fetch_add(2)` on a `u32`); consequently the ids allocated on one session
are strictly increasing and pairwise distinct among the allocations with
index below `2^31 - 1`. Beyond that the `u32` seed wraps and ids repeat
(see the counterexample), so the unbounded distinctness of the original
claim fails. -/
theorem claim_C9 (channel : String) :
    (∀ n, ¬channel = "" → nth_stream_id channel n % 2 = 1)
    ∧ (∀ n, nth_stream_id "" n % 2 = 0)
    ∧ (nth_stream_id channel 0 = stream_id_seed_init channel)
    ∧ (∀ n, nth_stream_id channel (n + 1) = (nth_stream_id channel n + 2) % 4294967296)
    ∧ (∀ (proto addr : String) (sessions : List (Option MuxSession)) (cursor fuel : Nat)
        (out : CreateOut),
        (create_stream_loop channel proto addr sessions cursor fuel).2.2 = some out →
        ∃ s, sessions[out.idx]? = some (some s)
          ∧ out.stream.stream_id = s.stream_id_seed
          ∧ out.ev.header.stream_id = s.stream_id_seed
          ∧ ∃ s2, (create_stream_loop channel proto addr sessions cursor fuel).1
              = sessions.set out.idx (some s2)
            ∧ s2.stream_id_seed = (s.stream_id_seed + 2) % 4294967296)
    ∧ (∀ m n, m < n → n < 2147483647 →
        nth_stream_id channel m < nth_stream_id channel n) := by
  have hdvd : (2 : Nat) ∣ 4294967296 := by norm_num
  refine ⟨?_, ?_, ?_, ?_, ?_, ?_⟩
  · intro n hch
    unfold nth_stream_id stream_id_seed_init
    rw [if_neg hch, Nat.mod_mod_of_dvd _ hdvd]
    omega
  · intro n
    unfold nth_stream_id stream_id_seed_init
    rw [if_pos rfl, Nat.mod_mod_of_dvd _ hdvd]
    omega
  · unfold nth_stream_id stream_id_seed_init
    split
    · decide
    · decide
  · intro n
    unfold nth_stream_id
    rw [Nat.mod_add_mod]
    omega
  · intro proto addr sessions cursor fuel out h
    rcases create_stream_loop_some fuel cursor h with ⟨s, hslot, hsid, hev, hstr, hset⟩
    refine ⟨s, hslot, by rw [hstr]; rfl, by rw [hev]; rfl, ?_⟩
    exact ⟨_, hset, rfl⟩
  · intro m n hmn hn
    unfold nth_stream_id stream_id_seed_init
    split
    · rw [Nat.mod_eq_of_lt (by omega), Nat.mod_eq_of_lt (by omega)]
      omega
    · rw [Nat.mod_eq_of_lt (by omega), Nat.mod_eq_of_lt (by omega)]
      omega

/-- Counterexample to claim C9 as stated: on a client-side session (seed 1)
the id allocated by the very first `create_stream` and the id allocated by
the `2^31`-th one are both `1` — the `u32` seed wraps — so the allocated
ids are neither strictly increasing nor pairwise distinct over all
allocations. -/
theorem claim_C9_counterexample :
    nth_stream_id "c" 0 = 1 ∧ nth_stream_id "c" 2147483648 = 1
    ∧ (0 : Nat) ≠ 2147483648 := by
  refine ⟨by decide, by decide, by decide⟩

theorem claim_C9_witness :
    nth_stream_id "c" 5 % 2 = 1 ∧ nth_stream_id "" 5 % 2 = 0
    ∧ nth_stream_id "c" 1 < nth_stream_id "c" 2 := by
  have h := claim_C9 "c"
  exact ⟨h.1 5 (by decide), h.2.1 5, h.2.2.2.2.2 1 2 (by decide) (by decide)⟩

lemma perm_shuffle {α : Type} (A B C D : List α) :
    List.Perm ((A ++ B) ++ (C ++ D)) ((A ++ C) ++ (B ++ D)) := by
  have h1 : (A ++ B) ++ (C ++ D) = A ++ ((B ++ C) ++ D) := by simp [List.append_assoc]
  have h2 : (A ++ C) ++ (B ++ D) = A ++ ((C ++ B) ++ D) := by simp [List.append_assoc]
  rw [h1, h2]
  exact List.Perm.append_left A (List.Perm.append_right D List.perm_append_comm)

lemma sublist_flatMap_of_mem {α β : Type} {l : List α} {a : α} (f : α → List β)
    (h : a ∈ l) : List.Sublist (f a) (l.flatMap f) := by
  induction l with
  | nil => simp at h
  | cons hd tl ih =>
    rcases List.mem_cons.mp h with h | h
    · subst h
      simp only [List.flatMap_cons]
      exact List.sublist_append_left (f a) (tl.flatMap f)
    · refine List.Sublist.trans (ih h) ?_
      simp only [List.flatMap_cons]
      exact List.sublist_append_right (f hd) (tl.flatMap f)

lemma slotIds_fillFirstSlot (l : List (Option MuxSession)) (s : MuxSession) :
    List.Perm (slotIds (fillFirstSlot l s)) (s.id :: slotIds l) := by
  induction l with
  | nil => simp [fillFirstSlot, slotIds, idsOfSlot]
  | cons hd tl ih =>
    cases hd with
    | none => simp [fillFirstSlot, slotIds, idsOfSlot]
    | some x =>
      simp only [fillFirstSlot, slotIds, List.flatMap_cons, idsOfSlot, List.cons_append,
        List.nil_append]
      exact List.Perm.trans (List.Perm.cons x.id ih) (List.Perm.swap s.id x.id _)

lemma flatMap_updateGroup_fill_perm {l : List (String × ChannelMuxSession)} {c : String}
    {g : ChannelMuxSession} (s : MuxSession) (h : getGroup l c = some g) :
    List.Perm
      ((updateGroup l c (fun g0 => { g0 with sessions := fillFirstSlot g0.sessions s })).flatMap
        (fun p => slotIds p.2.sessions))
      (s.id :: l.flatMap (fun p => slotIds p.2.sessions)) := by
  induction l with
  | nil => simp [getGroup] at h
  | cons hd tl ih =>
    obtain ⟨k, g0⟩ := hd
    by_cases hk : k = c
    · subst hk
      simp only [updateGroup, if_pos rfl, List.flatMap_cons]
      exact List.Perm.append_right _ (slotIds_fillFirstSlot g0.sessions s)
    · simp only [getGroup, if_neg hk] at h
      simp only [updateGroup, if_neg hk, List.flatMap_cons]
      exact List.Perm.trans (List.Perm.append_left _ (ih h)) List.perm_middle

lemma allIds_store (c : String) (s : MuxSession) (mgr : ChannelSessionManager) :
    List.Perm (allIds (store_mux_session c s mgr)) (s.id :: allIds mgr) := by
  cases hG : getGroup mgr.channels c with
  | none =>
    simp only [store_mux_session, hG, allIds, List.flatMap_append, List.flatMap_cons,
      List.flatMap_nil, slotIds, idsOfSlot, List.append_nil, List.nil_append]
    rw [List.append_assoc]
    exact List.perm_middle
  | some g =>
    simp only [store_mux_session, hG, allIds]
    exact List.Perm.append_right _ (flatMap_updateGroup_fill_perm s hG)

lemma eraseFromSlots_sub {sid : Nat} :
    ∀ {l l2 : List (Option MuxSession)}, eraseFromSlots l sid = some l2 →
      List.Sublist (slotIds l2) (slotIds l) := by
  intro l
  induction l with
  | nil => intro l2 h; simp [eraseFromSlots] at h
  | cons hd tl ih =>
    intro l2 h
    cases hd with
    | none =>
      cases htl : eraseFromSlots tl sid with
      | some rest2 =>
        rw [eraseFromSlots, htl] at h
        obtain rfl : none :: rest2 = l2 := by simpa using h
        simp only [slotIds, List.flatMap_cons, idsOfSlot, List.nil_append]
        exact ih htl
      | none =>
        rw [eraseFromSlots, htl] at h
        simp at h
    | some ss =>
      by_cases hid : ss.id = sid
      · rw [eraseFromSlots, if_pos hid] at h
        obtain rfl : none :: tl = l2 := by simpa using h
        simp only [slotIds, List.flatMap_cons, idsOfSlot, List.nil_append, List.cons_append]
        exact List.sublist_cons_self _ _
      · cases htl : eraseFromSlots tl sid with
        | some rest2 =>
          rw [eraseFromSlots, if_neg hid, htl] at h
          obtain rfl : some ss :: rest2 = l2 := by simpa using h
          simp only [slotIds, List.flatMap_cons, idsOfSlot, List.cons_append, List.nil_append]
          exact List.Sublist.cons₂ _ (ih htl)
        | none =>
          rw [eraseFromSlots, if_neg hid, htl] at h
          simp at h

lemma eraseFromRetired_sub (sid : Nat) : ∀ l : List MuxSession,
    List.Sublist ((eraseFromRetired l sid).map MuxSession.id) (l.map MuxSession.id) := by
  intro l
  induction l with
  | nil => simp [eraseFromRetired]
  | cons hd tl ih =>
    by_cases hid : hd.id = sid
    · simp only [eraseFromRetired, if_pos hid, List.map_cons]
      exact List.sublist_cons_self _ _
    · simp only [eraseFromRetired, if_neg hid, List.map_cons]
      exact List.Sublist.cons₂ _ ih

lemma flatMap_updateGroup_sessions_sub {l : List (String × ChannelMuxSession)} {c : String}
    {slots2 : List (Option MuxSession)} {g : ChannelMuxSession}
    (h : getGroup l c = some g) (hsub : List.Sublist (slotIds slots2) (slotIds g.sessions)) :
    List.Sublist
      ((updateGroup l c (fun g0 => { g0 with sessions := slots2 })).flatMap
        (fun p => slotIds p.2.sessions))
      (l.flatMap (fun p => slotIds p.2.sessions)) := by
  induction l with
  | nil => simp [getGroup] at h
  | cons hd tl ih =>
    obtain ⟨k, g0⟩ := hd
    by_cases hk : k = c
    · subst hk
      simp only [getGroup, if_pos rfl] at h
      obtain rfl : g0 = g := by simpa using h
      simp only [updateGroup, if_pos rfl, List.flatMap_cons]
      exact List.Sublist.append_right hsub _
    · simp only [getGroup, if_neg hk] at h
      simp only [updateGroup, if_neg hk, List.flatMap_cons]
      exact List.Sublist.append_left (ih h) _

lemma allIds_erase (c : String) (sid : Nat) (mgr : ChannelSessionManager) :
    List.Sublist (allIds (erase_mux_session c sid mgr)) (allIds mgr) := by
  cases hG : getGroup mgr.channels c with
  | none =>
    simp only [erase_mux_session, hG, allIds]
    exact List.Sublist.append (List.Sublist.refl _) (eraseFromRetired_sub sid mgr.retired)
  | some g =>
    cases hE : eraseFromSlots g.sessions sid with
    | some slots2 =>
      simp only [erase_mux_session, hG, hE, allIds]
      exact List.Sublist.append (flatMap_updateGroup_sessions_sub hG (eraseFromSlots_sub hE))
        (List.Sublist.refl _)
    | none =>
      simp only [erase_mux_session, hG, hE, allIds]
      exact List.Sublist.append (List.Sublist.refl _) (eraseFromRetired_sub sid mgr.retired)

lemma slot_route_ids (c : String) (jit : Nat → Int) (os : Option MuxSession) :
    idsOfSlot (slotAfterRoutine c jit os) ++ (slotRetiredOut c jit os).map MuxSession.id
      = idsOfSlot os := by
  cases os with
  | none => rfl
  | some s =>
    by_cases hg : s.state.ping_pong_gap < -60
    · simp [slotAfterRoutine, slotRetiredOut, idsOfSlot, hg]
    · by_cases ha : ageRetires c jit s = true
      · simp [slotAfterRoutine, slotRetiredOut, idsOfSlot, hg, ha]
      · simp [slotAfterRoutine, slotRetiredOut, idsOfSlot, hg, ha]

lemma perm_sessions_route (c : String) (jit : Nat → Int) (l : List (Option MuxSession)) :
    List.Perm
      (slotIds (l.map (slotAfterRoutine c jit))
        ++ (l.flatMap (slotRetiredOut c jit)).map MuxSession.id)
      (slotIds l) := by
  induction l with
  | nil => simp [slotIds]
  | cons os tl ih =>
    simp only [List.map_cons, List.flatMap_cons, slotIds, List.map_append]
    refine List.Perm.trans (perm_shuffle _ _ _ _) ?_
    rw [slot_route_ids]
    exact List.Perm.append_left _ ih

lemma perm_channels_route (jit : Nat → Int) (l : List (String × ChannelMuxSession)) :
    List.Perm
      ((l.map (fun p => (p.1, { p.2 with sessions := p.2.sessions.map (slotAfterRoutine p.1 jit) }))).flatMap
          (fun p => slotIds p.2.sessions)
        ++ (l.flatMap (fun p => p.2.sessions.flatMap (slotRetiredOut p.1 jit))).map MuxSession.id)
      (l.flatMap (fun p => slotIds p.2.sessions)) := by
  induction l with
  | nil => simp
  | cons p tl ih =>
    simp only [List.map_cons, List.flatMap_cons, List.map_append]
    refine List.Perm.trans (perm_shuffle _ _ _ _) ?_
    exact List.Perm.append (perm_sessions_route p.1 jit p.2.sessions) ih

lemma allIds_routine (jit : Nat → Int) (mgr : ChannelSessionManager) :
    List.Perm (allIds (routine_all_sessions jit mgr).1) (allIds mgr) := by
  simp only [routine_all_sessions, allIds, List.map_append]
  refine List.Perm.trans (List.Perm.append_left _ List.perm_append_comm) ?_
  rw [← List.append_assoc]
  exact List.Perm.append_right _ (perm_channels_route jit mgr.channels)

/-- Claim C8: assuming every session is stored under a tunnel id distinct
from all ids already present, the session ids across all channel slots and
the global retired bucket contain no duplicates (in particular each group's
slots together with the retired bucket), and this uniqueness is preserved
by `store_mux_session` (fresh-id insert), `erase_mux_session` and
`routine_all_sessions`. -/
theorem claim_C8 (mgr : ChannelSessionManager) (hN : (allIds mgr).Nodup) :
    (∀ c g, getGroup mgr.channels c = some g →
      (slotIds g.sessions ++ mgr.retired.map MuxSession.id).Nodup)
    ∧ (∀ c s, s.id ∉ allIds mgr → (allIds (store_mux_session c s mgr)).Nodup)
    ∧ (∀ c sid, (allIds (erase_mux_session c sid mgr)).Nodup)
    ∧ (∀ jit, (allIds (routine_all_sessions jit mgr).1).Nodup) := by
  refine ⟨?_, ?_, ?_, ?_⟩
  · intro c g hG
    have hmem := getGroup_mem hG
    have hsub := sublist_flatMap_of_mem
      (fun p : String × ChannelMuxSession => slotIds p.2.sessions) hmem
    exact List.Nodup.sublist (List.Sublist.append_right hsub _) hN
  · intro c s hnotin
    have hcons : (s.id :: allIds mgr).Nodup := List.nodup_cons.mpr ⟨hnotin, hN⟩
    exact (allIds_store c s mgr).nodup_iff.mpr hcons
  · intro c sid
    exact List.Nodup.sublist (allIds_erase c sid mgr) hN
  · intro jit
    exact (allIds_routine jit mgr).nodup_iff.mpr hN

theorem claim_C8_witness :
    (allIds (store_mux_session "a" exSession5 exMgrC7w)).Nodup
    ∧ (allIds (erase_mux_session "c" 7 exMgrC7w)).Nodup
    ∧ (allIds (routine_all_sessions (fun _ => 0) exMgrC7w).1).Nodup := by
  have h := claim_C8 exMgrC7w (by decide)
  exact ⟨h.2.1 "a" exSession5 (by decide), h.2.2.1 "c" 7, h.2.2.2 (fun _ => 0)⟩
